import Mathlib

/-!
Verification of the Discord engagement agent and its analytics store.

Python strings are modelled as lists of characters (`PyStr`), one entry per
code point, matching Python's character-based `len` and indexing.  SQLite
tables are modelled as lists of row structures, timestamps as minutes since
the epoch in UTC, and the asynchronous event handlers as explicit
state-transition functions.
-/

namespace Agent

/-- Python strings, one list entry per code point. -/
abbrev PyStr := List Char

/-- Embeds `DISCORD_MAX_LENGTH = 1900` from the agent source. -/
def DISCORD_MAX_LENGTH : Nat := 1900

/-- Embeds Python `text.split('\n')`: split into lines at every newline,
keeping empty pieces (so the number of pieces is one more than the number of
newlines). -/
def pySplitNl : PyStr → List PyStr
  | [] => [[]]
  | c :: cs =>
    if c = '\n' then [] :: pySplitNl cs
    else (c :: (pySplitNl cs).headD []) :: (pySplitNl cs).tail

/-- Embeds Python `'\n'.join(pieces)`. -/
def joinNl : List PyStr → PyStr
  | [] => []
  | [l] => l
  | l :: ls => l ++ '\n' :: joinNl ls

theorem pySplitNl_ne_nil (s : PyStr) : pySplitNl s ≠ [] := by
  cases s with
  | nil => simp [pySplitNl]
  | cons c cs =>
    simp only [pySplitNl]
    split <;> simp

theorem joinNl_cons_cons (a b : PyStr) (ls : List PyStr) :
    joinNl (a :: b :: ls) = a ++ '\n' :: joinNl (b :: ls) := rfl

theorem joinNl_pySplitNl (s : PyStr) : joinNl (pySplitNl s) = s := by
  induction s with
  | nil => rfl
  | cons c cs ih =>
    simp only [pySplitNl]
    rcases h : pySplitNl cs with _ | ⟨p, ps⟩
    · exact absurd h (pySplitNl_ne_nil cs)
    · rw [h] at ih
      by_cases hc : c = '\n'
      · rw [if_pos hc, hc, joinNl_cons_cons, ih]
        rfl
      · rw [if_neg hc]
        simp only [List.headD_cons, List.tail_cons]
        cases ps with
        | nil =>
          simp only [joinNl] at ih ⊢
          rw [ih]
        | cons q qs =>
          rw [joinNl_cons_cons] at ih
          rw [joinNl_cons_cons, List.cons_append, ih]

theorem newline_not_mem_pySplitNl (s : PyStr) :
    ∀ p ∈ pySplitNl s, '\n' ∉ p := by
  induction s with
  | nil => simp [pySplitNl]
  | cons c cs ih =>
    simp only [pySplitNl]
    rcases h : pySplitNl cs with _ | ⟨q, qs⟩
    · exact absurd h (pySplitNl_ne_nil cs)
    · rw [h] at ih
      by_cases hc : c = '\n'
      · rw [if_pos hc]
        intro p hp
        rcases List.mem_cons.mp hp with rfl | hp
        · simp
        · exact ih p hp
      · rw [if_neg hc]
        simp only [List.headD_cons, List.tail_cons]
        intro p hp
        rcases List.mem_cons.mp hp with rfl | hp
        · intro hmem
          rcases List.mem_cons.mp hmem with h1 | h1
          · exact hc h1.symm
          · exact ih q (List.mem_cons_self q qs) h1
        · exact ih p (List.mem_cons_of_mem q hp)

theorem pySplitNl_append_newline (a b : PyStr) :
    pySplitNl (a ++ '\n' :: b) = pySplitNl a ++ pySplitNl b := by
  induction a with
  | nil => simp [pySplitNl]
  | cons c cs ih =>
    by_cases hc : c = '\n'
    · simp only [List.cons_append, pySplitNl, List.append_eq, ih, if_pos hc]
    · simp only [List.cons_append, pySplitNl, List.append_eq, ih, if_neg hc]
      rcases h : pySplitNl cs with _ | ⟨p, ps⟩
      · exact absurd h (pySplitNl_ne_nil cs)
      · simp [h]

theorem pySplitNl_no_newline (s : PyStr) (h : '\n' ∉ s) :
    pySplitNl s = [s] := by
  induction s with
  | nil => rfl
  | cons c cs ih =>
    have hc : c ≠ '\n' := fun hc => h (hc ▸ List.mem_cons_self c cs)
    have hcs : '\n' ∉ cs := fun hm => h (List.mem_cons_of_mem c hm)
    simp [pySplitNl, hc, ih hcs]

/-- Embeds the accumulator loop of `split_message`: `chunks` and
`current_chunk` are the Python locals; a chunk is flushed when appending the
next line would exceed the limit, and a nonempty `current_chunk` is flushed
at the end. -/
def splitLoop : List PyStr → List PyStr → PyStr → List PyStr
  | [], chunks, cur => if cur = [] then chunks else chunks ++ [cur]
  | line :: rest, chunks, cur =>
    if cur.length + line.length + 1 > DISCORD_MAX_LENGTH then
      splitLoop rest (if cur = [] then chunks else chunks ++ [cur]) line
    else
      splitLoop rest chunks (if cur = [] then line else cur ++ '\n' :: line)

/-- Embeds `split_message`: a message short enough is returned whole,
otherwise it is split at line boundaries by `splitLoop`. -/
def split_message (msg : PyStr) : List PyStr :=
  if msg.length ≤ DISCORD_MAX_LENGTH then [msg]
  else splitLoop (pySplitNl msg) [] []

theorem joinNl_cons_ne (x : PyStr) (ys : List PyStr) (h : ys ≠ []) :
    joinNl (x :: ys) = x ++ '\n' :: joinNl ys := by
  cases ys with
  | nil => exact absurd rfl h
  | cons y ys' => rfl

theorem joinNl_append (a b : List PyStr) (ha : a ≠ []) (hb : b ≠ []) :
    joinNl (a ++ b) = joinNl a ++ '\n' :: joinNl b := by
  induction a with
  | nil => exact absurd rfl ha
  | cons x xs ih =>
    cases xs with
    | nil => simp [joinNl_cons_ne x b hb, joinNl]
    | cons z zs =>
      rw [List.cons_append, joinNl_cons_ne x ((z :: zs) ++ b) (by simp),
        joinNl_cons_ne x (z :: zs) (by simp), ih (by simp)]
      simp [List.append_assoc]

theorem flatMap_pySplitNl_ne_nil (cs : List PyStr) (h : cs ≠ []) :
    cs.flatMap pySplitNl ≠ [] := by
  cases cs with
  | nil => exact absurd rfl h
  | cons c cs' =>
    simp only [List.flatMap_cons]
    intro hx
    rcases List.append_eq_nil.mp hx with ⟨h1, _⟩
    exact pySplitNl_ne_nil c h1

theorem joinNl_flatMap (cs : List PyStr) :
    joinNl (cs.flatMap pySplitNl) = joinNl cs := by
  induction cs with
  | nil => rfl
  | cons c cs' ih =>
    by_cases hcs : cs' = []
    · subst hcs
      simp [joinNl_pySplitNl, joinNl]
    · rw [List.flatMap_cons,
        joinNl_append _ _ (pySplitNl_ne_nil c) (flatMap_pySplitNl_ne_nil _ hcs),
        joinNl_pySplitNl, ih, joinNl_cons_ne c cs' hcs]

theorem splitLoop_flatMap (lines : List PyStr) :
    ∀ chunks cur, (∀ l ∈ lines, l ≠ [] ∧ '\n' ∉ l) →
    (splitLoop lines chunks cur).flatMap pySplitNl =
      chunks.flatMap pySplitNl ++ (if cur = [] then [] else pySplitNl cur) ++ lines := by
  induction lines with
  | nil =>
    intro chunks cur _
    by_cases hcur : cur = []
    · simp [splitLoop, hcur]
    · simp [splitLoop, hcur]
  | cons line rest ih =>
    intro chunks cur h
    obtain ⟨hne, hnl⟩ := h line (List.mem_cons_self line rest)
    have hrest : ∀ l ∈ rest, l ≠ [] ∧ '\n' ∉ l :=
      fun l hl => h l (List.mem_cons_of_mem line hl)
    simp only [splitLoop]
    by_cases hbig : cur.length + line.length + 1 > DISCORD_MAX_LENGTH
    · rw [if_pos hbig, ih _ _ hrest]
      by_cases hcur : cur = []
      · simp [hcur, pySplitNl_no_newline line hnl, hne]
      · simp [hcur, pySplitNl_no_newline line hnl, hne]
    · rw [if_neg hbig, ih _ _ hrest]
      by_cases hcur : cur = []
      · simp [hcur, pySplitNl_no_newline line hnl, hne]
      · have hcur2 : cur ++ '\n' :: line ≠ [] := by simp
        simp [hcur, hcur2, pySplitNl_append_newline, pySplitNl_no_newline line hnl]

theorem splitLoop_length (lines : List PyStr) :
    ∀ chunks cur, (∀ l ∈ lines, l.length ≤ DISCORD_MAX_LENGTH) →
    (∀ c ∈ chunks, c.length ≤ DISCORD_MAX_LENGTH) →
    cur.length ≤ DISCORD_MAX_LENGTH →
    ∀ c ∈ splitLoop lines chunks cur, c.length ≤ DISCORD_MAX_LENGTH := by
  induction lines with
  | nil =>
    intro chunks cur _ hch hc c hmem
    simp only [splitLoop] at hmem
    by_cases hcur : cur = []
    · rw [if_pos hcur] at hmem
      exact hch c hmem
    · rw [if_neg hcur] at hmem
      rcases List.mem_append.mp hmem with hm | hm
      · exact hch c hm
      · rw [List.mem_singleton.mp hm]
        exact hc
  | cons line rest ih =>
    intro chunks cur hl hch hc
    have hline := hl line (List.mem_cons_self line rest)
    have hrest : ∀ l ∈ rest, l.length ≤ DISCORD_MAX_LENGTH :=
      fun l hm => hl l (List.mem_cons_of_mem line hm)
    simp only [splitLoop]
    by_cases hbig : cur.length + line.length + 1 > DISCORD_MAX_LENGTH
    · rw [if_pos hbig]
      refine ih _ _ hrest ?_ hline
      intro c hc'
      by_cases hcur : cur = []
      · rw [if_pos hcur] at hc'
        exact hch c hc'
      · rw [if_neg hcur] at hc'
        rcases List.mem_append.mp hc' with hm | hm
        · exact hch c hm
        · rw [List.mem_singleton.mp hm]
          exact hc
    · rw [if_neg hbig]
      refine ih _ _ hrest hch ?_
      have hle : cur.length + line.length + 1 ≤ DISCORD_MAX_LENGTH := Nat.le_of_not_lt hbig
      by_cases hcur : cur = []
      · rw [if_pos hcur]
        omega
      · rw [if_neg hcur]
        simp only [List.length_append, List.length_cons]
        omega

/-- C6 (amended): provided every line of the input is nonempty and no longer
than the 1900-character limit, `split_message` returns chunks of length at
most the limit, each chunk is a run of whole input lines in their original
order (flattening the chunks back into lines recovers the input's line
sequence exactly), and joining the chunks with newlines reconstructs the
input.  The hypotheses are forced by `claim_C6_counterexample`: an over-long
single line is emitted as an over-long chunk, and an empty line at a chunk
boundary is dropped. -/
theorem claim_C6_split_message (msg : PyStr)
    (h : ∀ l ∈ pySplitNl msg, l ≠ [] ∧ l.length ≤ DISCORD_MAX_LENGTH) :
    (∀ c ∈ split_message msg, c.length ≤ DISCORD_MAX_LENGTH) ∧
    (split_message msg).flatMap pySplitNl = pySplitNl msg ∧
    joinNl (split_message msg) = msg := by
  by_cases hlen : msg.length ≤ DISCORD_MAX_LENGTH
  · rw [split_message, if_pos hlen]
    refine ⟨?_, by simp, rfl⟩
    intro c hc
    rw [List.mem_singleton.mp hc]
    exact hlen
  · rw [split_message, if_neg hlen]
    have hf := splitLoop_flatMap (pySplitNl msg) [] []
      (fun l hl => ⟨(h l hl).1, newline_not_mem_pySplitNl msg l hl⟩)
    simp only [List.flatMap_nil, if_true, List.nil_append] at hf
    refine ⟨?_, hf, ?_⟩
    · exact splitLoop_length (pySplitNl msg) [] []
        (fun l hl => (h l hl).2) (by simp) (by simp)
    · calc joinNl (splitLoop (pySplitNl msg) [] [])
          = joinNl ((splitLoop (pySplitNl msg) [] []).flatMap pySplitNl) :=
            (joinNl_flatMap _).symm
        _ = joinNl (pySplitNl msg) := by rw [hf]
        _ = msg := joinNl_pySplitNl msg

/-- Concrete message exercising the splitting loop for the C6 witness: two
lines of 1000 characters each, total length 2001. -/
def c6wMsg : PyStr := joinNl [List.replicate 1000 'a', List.replicate 1000 'b']

set_option maxRecDepth 100000 in
theorem claim_C6_split_message_witness :
    (split_message c6wMsg).flatMap pySplitNl = pySplitNl c6wMsg ∧
    joinNl (split_message c6wMsg) = c6wMsg :=
  (claim_C6_split_message c6wMsg (by decide)).2

/-- Concrete input refuting C6 as stated: a leading empty line followed by a
single 1901-character line. -/
def c6bad : PyStr := '\n' :: List.replicate 1901 'a'

set_option maxRecDepth 100000 in
/-- C6 (counterexample): on `c6bad`, `split_message` emits a chunk of 1901
characters, above `DISCORD_MAX_LENGTH`, and joining the returned chunks with
newlines does not reconstruct the input (the leading empty line is lost). -/
theorem claim_C6_counterexample :
    split_message c6bad = [List.replicate 1901 'a'] ∧
    DISCORD_MAX_LENGTH < (List.replicate 1901 'a').length ∧
    joinNl (split_message c6bad) ≠ c6bad := by
  have hnl : ('\n') ∉ List.replicate 1901 'a' := by
    rw [List.mem_replicate]
    simp
  have hsplit : pySplitNl c6bad = [[], List.replicate 1901 'a'] := by
    show pySplitNl ('\n' :: List.replicate 1901 'a') = _
    rw [pySplitNl, if_pos rfl, pySplitNl_no_newline _ hnl]
  have hmsg : split_message c6bad = [List.replicate 1901 'a'] := by
    rw [split_message, if_neg (by simp [c6bad, DISCORD_MAX_LENGTH]), hsplit]
    simp [splitLoop, DISCORD_MAX_LENGTH]
  refine ⟨hmsg, by simp [DISCORD_MAX_LENGTH], ?_⟩
  rw [hmsg]
  intro hEq
  have hlen2 : (joinNl [List.replicate 1901 'a']).length = c6bad.length :=
    congrArg List.length hEq
  simp [joinNl, c6bad] at hlen2

/-- Whitespace characters recognized by Python's default `str.split`,
`str.strip` and the regex whitespace class (ASCII subset; the Unicode-only
whitespace code points do not occur in the properties proved here). -/
def pyIsSpace (c : Char) : Bool :=
  c == ' ' || c == '\t' || c == '\n' || c == '\x0b' || c == '\x0c' || c == '\r'

/-- Splits `s` at the first occurrence of the literal pattern `pat`,
returning the part before the match and the part after it, or `none` when
`pat` does not occur in `s`. -/
def breakOn (pat : PyStr) : PyStr → Option (PyStr × PyStr)
  | [] => if pat.isPrefixOf [] then some ([], []) else none
  | c :: cs =>
    if pat.isPrefixOf (c :: cs) then some ([], (c :: cs).drop pat.length)
    else
      match breakOn pat cs with
      | some (pre, post) => some (c :: pre, post)
      | none => none

theorem breakOn_post_length (pat : PyStr) :
    ∀ s pre post, breakOn pat s = some (pre, post) →
    post.length + pat.length ≤ s.length := by
  intro s
  induction s with
  | nil =>
    intro pre post h
    simp only [breakOn] at h
    by_cases hp : pat.isPrefixOf [] = true
    · rw [if_pos hp] at h
      have := (List.isPrefixOf_iff_prefix.mp hp).length_le
      injection h with h'
      cases h'
      simpa using this
    · rw [if_neg hp] at h
      exact absurd h (by simp)
  | cons c cs ih =>
    intro pre post h
    simp only [breakOn] at h
    by_cases hp : pat.isPrefixOf (c :: cs) = true
    · rw [if_pos hp] at h
      have hle := (List.isPrefixOf_iff_prefix.mp hp).length_le
      injection h with h'
      cases h'
      simp only [List.length_drop]
      omega
    · rw [if_neg hp] at h
      cases hb : breakOn pat cs with
      | none =>
        rw [hb] at h
        exact absurd h (by simp)
      | some pr =>
        obtain ⟨preb, postb⟩ := pr
        rw [hb] at h
        injection h with h2
        have hlen := ih preb postb hb
        have h3 : postb = post := congrArg Prod.snd h2
        subst h3
        simp only [List.length_cons]
        omega

/-- Embeds one deletion pass of `re.sub(pat + '.*?' + pat, '', text)` for a
literal delimiter `pat` (used with the fenced and inline code patterns):
repeatedly remove the leftmost delimiter pair together with the enclosed
text, continuing after the removed region.  The fuel argument bounds the
number of removals; `stripPairs` supplies the string length, which dominates
it because every removal consumes at least two delimiters. -/
def stripPairsGo (pat : PyStr) : Nat → PyStr → PyStr
  | 0, s => s
  | fuel + 1, s =>
    match breakOn pat s with
    | none => s
    | some (pre, rest) =>
      match breakOn pat rest with
      | none => s
      | some (_, rest2) => pre ++ stripPairsGo pat fuel rest2

/-- Embeds `re.sub(r'<pat>.*?<pat>', '', text)` for a literal delimiter. -/
def stripPairs (pat : PyStr) (s : PyStr) : PyStr := stripPairsGo pat s.length s

/-- First character range of the ANSI-escape regex alternation. -/
def inAnsiClass1 (c : Char) : Bool :=
  (0x40 ≤ c.toNat && c.toNat ≤ 0x5A) || (0x5C ≤ c.toNat && c.toNat ≤ 0x5F)

/-- CSI parameter bytes of the ANSI-escape regex. -/
def isCsiParam (c : Char) : Bool := 0x30 ≤ c.toNat && c.toNat ≤ 0x3F

/-- CSI intermediate bytes of the ANSI-escape regex. -/
def isCsiInter (c : Char) : Bool := 0x20 ≤ c.toNat && c.toNat ≤ 0x2F

/-- CSI final bytes of the ANSI-escape regex. -/
def isCsiFinal (c : Char) : Bool := 0x40 ≤ c.toNat && c.toNat ≤ 0x7E

/-- Embeds `ansi_escape.sub('', text)`: removes each escape character
followed by either a single class-1 byte or a complete CSI sequence; an
escape character starting no complete match is kept.  Fuel as in
`stripPairsGo`. -/
def ansiSubGo : Nat → PyStr → PyStr
  | 0, s => s
  | _, [] => []
  | fuel + 1, c :: cs =>
    if c = '\x1b' then
      match cs with
      | [] => [c]
      | d :: ds =>
        if inAnsiClass1 d then ansiSubGo fuel ds
        else if d = '[' then
          match (ds.dropWhile isCsiParam).dropWhile isCsiInter with
          | [] => c :: ansiSubGo fuel cs
          | e :: es => if isCsiFinal e then ansiSubGo fuel es else c :: ansiSubGo fuel cs
        else c :: ansiSubGo fuel cs
    else c :: ansiSubGo fuel cs

/-- Embeds the ANSI-escape removal step of `clean_message`. -/
def ansiSub (s : PyStr) : PyStr := ansiSubGo s.length s

/-- Embeds `re.sub(r'[|*_~>]', '', text)`. -/
def removeSyms (s : PyStr) : PyStr :=
  s.filter (fun c => !(['|', '*', '_', '~', '>'].contains c))

/-- Embeds `re.sub(r'\n\s*\n', '\n\n', text)`: a newline, a greedy run of
whitespace, and a closing newline collapse to exactly two newlines; the scan
resumes after the replaced region.  Fuel as in `stripPairsGo`. -/
def collapseBlankGo : Nat → PyStr → PyStr
  | 0, s => s
  | _, [] => []
  | fuel + 1, c :: cs =>
    if c = '\n' then
      if '\n' ∈ cs.takeWhile pyIsSpace then
        '\n' :: '\n' ::
          collapseBlankGo fuel
            (cs.drop ((cs.takeWhile pyIsSpace).length -
              List.indexOf '\n' (cs.takeWhile pyIsSpace).reverse))
      else c :: collapseBlankGo fuel cs
    else c :: collapseBlankGo fuel cs

/-- Embeds the blank-line collapsing step of `clean_message`. -/
def collapseBlank (s : PyStr) : PyStr := collapseBlankGo s.length s

/-- Embeds Python `text.strip()`. -/
def pyStrip (s : PyStr) : PyStr :=
  ((s.dropWhile pyIsSpace).reverse.dropWhile pyIsSpace).reverse

/-- Characters kept by the character-class filter of `clean_message`: word
characters (ASCII reading of the regex word class), whitespace, and the
listed punctuation. -/
def isAllowedChar (c : Char) : Bool :=
  c.isAlphanum || c == '_' || pyIsSpace c ||
    ['.', ',', '!', '?', '₹', '$', '€', '£', '¥', '@', '%', '&', '*', '(', ')',
      '-', '+', '=', ':', ';', '<', '>', '/', '\\', '|', '[', ']',
      '\x7b', '\x7d'].contains c

/-- Embeds the character-whitelist step of `clean_message`. -/
def dropDisallowed (s : PyStr) : PyStr := s.filter isAllowedChar

/-- Embeds the accumulator loop behind Python `text.split()`: splits into
maximal runs of non-whitespace characters, discarding all whitespace. -/
def splitWsGo : PyStr → PyStr → List PyStr
  | [], acc => if acc = [] then [] else [acc.reverse]
  | c :: cs, acc =>
    if pyIsSpace c then
      if acc = [] then splitWsGo cs []
      else acc.reverse :: splitWsGo cs []
    else splitWsGo cs (c :: acc)

/-- Embeds Python `text.split()` (no separator argument). -/
def pySplitWs (s : PyStr) : List PyStr := splitWsGo s []

/-- Embeds Python `' '.join(tokens)`. -/
def joinSp : List PyStr → PyStr
  | [] => []
  | [t] => t
  | t :: ts => t ++ ' ' :: joinSp ts

/-- Embeds the final step `' '.join(text.split())` of `clean_message`. -/
def collapseWs (s : PyStr) : PyStr := joinSp (pySplitWs s)

/-- Embeds `clean_message`: ANSI-escape removal, fenced-code and inline-code
removal, markup-symbol removal, blank-line collapsing, strip, character
whitelist, and final whitespace collapse, in the source's order. -/
def clean_message (text : PyStr) : PyStr :=
  collapseWs (dropDisallowed (pyStrip (collapseBlank (removeSyms
    (stripPairs ['`'] (stripPairs ['`', '`', '`'] (ansiSub text)))))))

/-- Embeds `extract_response`: everything after the first newline following
the first occurrence of the marker word, stripped; or the whole text
stripped when the regex does not match. -/
def extract_response (text : PyStr) : PyStr :=
  match breakOn ("Response".toList) text with
  | none => pyStrip text
  | some (_, rest) =>
    match breakOn ['\n'] rest with
    | none => pyStrip text
    | some (_, after) => pyStrip after

theorem splitWsGo_no_space (s : PyStr) :
    ∀ acc, (∀ a ∈ acc, pyIsSpace a = false) →
    ∀ t ∈ splitWsGo s acc, ∀ c ∈ t, pyIsSpace c = false := by
  induction s with
  | nil =>
    intro acc hacc t ht c hc
    simp only [splitWsGo] at ht
    by_cases h : acc = []
    · rw [if_pos h] at ht
      simp at ht
    · rw [if_neg h] at ht
      rw [List.mem_singleton.mp ht] at hc
      exact hacc c (List.mem_reverse.mp hc)
  | cons x xs ih =>
    intro acc hacc t ht c hc
    simp only [splitWsGo] at ht
    by_cases hx : pyIsSpace x = true
    · rw [if_pos hx] at ht
      by_cases h : acc = []
      · rw [if_pos h] at ht
        exact ih [] (by simp) t ht c hc
      · rw [if_neg h] at ht
        rcases List.mem_cons.mp ht with rfl | ht'
        · exact hacc c (List.mem_reverse.mp hc)
        · exact ih [] (by simp) t ht' c hc
    · rw [if_neg hx] at ht
      refine ih (x :: acc) ?_ t ht c hc
      intro a ha
      rcases List.mem_cons.mp ha with rfl | ha'
      · exact Bool.not_eq_true _ ▸ Bool.eq_false_iff.mpr (fun hcontra => hx hcontra)
      · exact hacc a ha'

theorem mem_joinSp (ts : List PyStr) (c : Char) (h : c ∈ joinSp ts) :
    c = ' ' ∨ ∃ t ∈ ts, c ∈ t := by
  induction ts with
  | nil => simp [joinSp] at h
  | cons t ts' ih =>
    cases ts' with
    | nil => exact Or.inr ⟨t, by simp, h⟩
    | cons u us =>
      rw [show joinSp (t :: u :: us) = t ++ ' ' :: joinSp (u :: us) from rfl] at h
      rcases List.mem_append.mp h with h1 | h1
      · exact Or.inr ⟨t, List.mem_cons_self t (u :: us), h1⟩
      · rcases List.mem_cons.mp h1 with rfl | h2
        · exact Or.inl rfl
        · rcases ih h2 with h3 | ⟨t', ht', hc⟩
          · exact Or.inl h3
          · exact Or.inr ⟨t', List.mem_cons_of_mem t ht', hc⟩

theorem collapseWs_no_newline (s : PyStr) : '\n' ∉ collapseWs s := by
  intro h
  rcases mem_joinSp _ _ h with h1 | ⟨t, ht, hc⟩
  · exact absurd h1 (by decide)
  · have := splitWsGo_no_space s [] (by simp) t ht '\n' hc
    simp [pyIsSpace] at this

/-- C10 (confirmed): the final whitespace-collapse step of `clean_message`
joins whitespace-free tokens with single spaces, so for every input string
the output of `clean_message` contains no newline character; every generated
response that goes through the cleanup-then-split pipeline therefore reaches
`split_message` as a single line. -/
theorem claim_C10_clean_message_no_newline (text : PyStr) :
    '\n' ∉ clean_message text :=
  collapseWs_no_newline _

/-- A Discord message as delivered by the platform: snowflake id, channel,
author, author flags, mention of the bot, text, creation time (minutes since
the epoch, UTC), and the reply reference — the referenced message's id and
whether the referenced message was authored by this bot
(`message.reference.resolved.author == bot.user`). -/
structure DMsg where
  id : Nat
  channelId : Nat
  authorId : Nat
  authorIsBot : Bool
  authorIsSelf : Bool
  mentionsSelf : Bool
  content : PyStr
  createdAt : Nat
  refId : Option Nat
  refIsSelf : Bool
deriving DecidableEq

/-- A row of the SQLite `messages` table.  `rowid` is the value of the
`id INTEGER PRIMARY KEY` column, assigned by SQLite because `log_message`
never supplies it.  `ts` is the stored timestamp in minutes since the epoch,
UTC: `log_message` stores the IST `isoformat()` string, which carries its
`+05:30` suffix, so SQLite's `datetime()` normalizes it back to UTC whenever
the column is read. -/
structure MsgRow where
  rowid : Nat
  channel_id : String
  author_id : String
  content : PyStr
  ts : Nat
  is_bot : Bool
  is_reply : Bool
  reply_to_id : Option Nat
  has_reply : Bool
deriving DecidableEq

/-- SQLite's rowid assignment for an INSERT without an explicit id: one more
than the largest existing rowid. -/
def newRowid (db : List MsgRow) : Nat :=
  (db.map MsgRow.rowid).foldr max 0 + 1

/-- Embeds `Analytics.log_message`: INSERT of the message's channel, author,
content, IST timestamp and flags; `has_reply` takes its column default 0 and
the id column is auto-assigned. -/
def log_message (db : List MsgRow) (m : DMsg) (isBot isReply : Bool)
    (replyTo : Option Nat) : List MsgRow :=
  db ++ [{ rowid := newRowid db, channel_id := toString m.channelId,
           author_id := toString m.authorId, content := m.content,
           ts := m.createdAt, is_bot := isBot, is_reply := isReply,
           reply_to_id := replyTo, has_reply := false }]

/-- Embeds `Analytics.mark_message_as_replied`: `UPDATE messages SET
has_reply = 1 WHERE id = ?`. -/
def mark_message_as_replied (db : List MsgRow) (messageId : Nat) : List MsgRow :=
  db.map (fun r => if r.rowid = messageId then { r with has_reply := true } else r)

/-- Minute value of the hour label `strftime('%Y-%m-%d %H:00:00', t)`. -/
def hourFloor (t : Nat) : Nat := 60 * (t / 60)

/-- The fixed offset applied by `datetime(timestamp, '+5 hours', '+30
minutes')` and by the IST conversion of the wall clock: 330 minutes. -/
def IST_OFFSET : Nat := 330

/-- Hour bucket assigned to a stored timestamp by the read path
(`get_hourly_stats`): the fixed offset is added to the UTC-normalized
timestamp before flooring to the hour. -/
def istBucket (ts : Nat) : Nat := hourFloor (ts + IST_OFFSET)

/-- The `current_hour` label computed by
`_format_ist_time(_get_ist_time())`: the wall clock shifted to IST and
floored to the hour. -/
def currentHourLabel (now : Nat) : Nat := hourFloor (now + IST_OFFSET)

/-- The WHERE clause of `update_hourly_stats`: `datetime(timestamp) >=
datetime(?) AND datetime(timestamp) < datetime(?, '+1 hour')` with `?` bound
to the current-hour label; `datetime(timestamp)` is the UTC-normalized
stored value and is compared against the label as a naive datetime. -/
def inCurrentHour (cur : Nat) (r : MsgRow) : Bool :=
  decide (cur ≤ r.ts ∧ r.ts < cur + 60)

/-- A row of the `hourly_stats` table (`hour TEXT PRIMARY KEY`); hour labels
are minute values as elsewhere, and the REAL rate column is modelled by
exact rational arithmetic. -/
structure StatRow where
  hour : Nat
  total_messages : Nat
  unique_users : Nat
  bot_responses : Nat
  response_rate : ℚ
deriving DecidableEq

/-- Embeds `AVG(CASE WHEN is_bot = 1 THEN has_reply ELSE NULL END)` together
with the NULL fallback to 0 applied on both aggregation paths (the
`pd.notnull` check in `update_hourly_stats`, `COALESCE` in
`get_hourly_stats`): the average of the 0/1 `has_reply` column over the bot
rows, and 0 when there is no bot row. -/
def response_rate_of (group : List MsgRow) : ℚ :=
  if (group.filter MsgRow.is_bot).isEmpty then 0
  else ((group.filter MsgRow.is_bot).countP MsgRow.has_reply : ℚ) /
    ((group.filter MsgRow.is_bot).length : ℚ)

/-- Embeds `COUNT(DISTINCT author_id)`. -/
def uniqueUsers (group : List MsgRow) : Nat :=
  (group.map MsgRow.author_id).dedup.length

/-- The aggregate row produced for hour label `k` from the rows `group`. -/
def statRowFor (k : Nat) (group : List MsgRow) : StatRow :=
  { hour := k, total_messages := group.length,
    unique_users := uniqueUsers group,
    bot_responses := group.countP MsgRow.is_bot,
    response_rate := response_rate_of group }

/-- Embeds `INSERT OR REPLACE INTO hourly_stats`: any existing row with the
same hour key is deleted and the new row inserted. -/
def upsertStat (stats : List StatRow) (row : StatRow) : List StatRow :=
  stats.filter (fun r => r.hour != row.hour) ++ [row]

/-- Embeds `Analytics.update_hourly_stats` with the wall clock passed
explicitly: the messages whose UTC-normalized timestamp lies in the
current-hour window are aggregated and the resulting row upserted under the
current IST hour label.  The aggregate SELECT always returns one row, so the
`stats.empty` fallback branch of the source is unreachable; for an empty
group the computed row already consists of zeros. -/
def update_hourly_stats (msgs : List MsgRow) (now : Nat)
    (stats : List StatRow) : List StatRow :=
  upsertStat stats
    (statRowFor (currentHourLabel now)
      (msgs.filter (inCurrentHour (currentHourLabel now))))

/-- Sorted duplicate-free list of group keys: embeds GROUP BY combined with
ORDER BY hour ASC (hour-label strings compare chronologically). -/
def sortedKeys (keys : List Nat) : List Nat :=
  List.insertionSort (· ≤ ·) keys.dedup

/-- The messages admitted by the WHERE clause of `get_hourly_stats`:
UTC-normalized timestamp at least the hour-floored IST start label, compared
as naive datetimes. -/
def inRangeMsgs (msgs : List MsgRow) (hours now : Nat) : List MsgRow :=
  msgs.filter (fun r => decide (hourFloor (now + IST_OFFSET - 60 * hours) ≤ r.ts))

/-- Embeds `Analytics.get_hourly_stats` with the wall clock passed
explicitly: the in-range messages are grouped by IST hour bucket in
ascending order, one aggregate row per occupied bucket; when the query
yields no rows, a single all-zero row for the current hour is returned. -/
def get_hourly_stats (msgs : List MsgRow) (hours now : Nat) : List StatRow :=
  if (sortedKeys ((inRangeMsgs msgs hours now).map (fun r => istBucket r.ts))).isEmpty
  then [statRowFor (currentHourLabel now) []]
  else
    (sortedKeys ((inRangeMsgs msgs hours now).map (fun r => istBucket r.ts))).map
      (fun k => statRowFor k
        ((inRangeMsgs msgs hours now).filter (fun r => istBucket r.ts == k)))

/-- C3 (amended): the fixed IST offset is applied on the read path only.
A message is counted by `update_hourly_stats` exactly when the run's
current-hour label equals the UTC hour of the message's stored timestamp,
while `get_hourly_stats` groups the same message under the IST hour bucket,
which exceeds the write-path label by 5 hours (timestamp minute below 30) or
6 hours (minute 30 or above); the two paths never assign the same hour. -/
theorem claim_C3_bucket_mismatch (r : MsgRow) (now : Nat)
    (h : inCurrentHour (currentHourLabel now) r = true) :
    currentHourLabel now = hourFloor r.ts ∧
    istBucket r.ts = hourFloor r.ts + (if r.ts % 60 < 30 then 300 else 360) ∧
    istBucket r.ts ≠ currentHourLabel now := by
  simp only [inCurrentHour, currentHourLabel, hourFloor, istBucket, IST_OFFSET,
    decide_eq_true_eq] at h ⊢
  refine ⟨by omega, ?_, by omega⟩
  by_cases hm : r.ts % 60 < 30
  · rw [if_pos hm]
    omega
  · rw [if_neg hm]
    omega

/-- Concrete message for C3: stored timestamp at UTC minute 999000 (an exact
hour boundary). -/
def c3m : MsgRow :=
  { rowid := 1, channel_id := "c", author_id := "u", content := [],
    ts := 999000, is_bot := false, is_reply := false, reply_to_id := none,
    has_reply := false }

theorem claim_C3_bucket_mismatch_witness :
    currentHourLabel 998670 = hourFloor c3m.ts ∧
    istBucket c3m.ts = hourFloor c3m.ts + (if c3m.ts % 60 < 30 then 300 else 360) ∧
    istBucket c3m.ts ≠ currentHourLabel 998670 :=
  claim_C3_bucket_mismatch c3m 998670 (by decide)

/-- C3 (counterexample): for the message stored at UTC minute 999000, an
aggregation run during the IST hour labeled 999300 — the bucket the read
path assigns the message — counts nothing (all-zero row), a run during the
hour labeled 999000 counts it, and `get_hourly_stats` reports it under
999300: the write path and the read path bucket the same message under
different hours. -/
theorem claim_C3_counterexample :
    update_hourly_stats [c3m] 998970 [] =
      [{ hour := 999300, total_messages := 0, unique_users := 0,
         bot_responses := 0, response_rate := 0 }] ∧
    update_hourly_stats [c3m] 998670 [] =
      [{ hour := 999000, total_messages := 1, unique_users := 1,
         bot_responses := 0, response_rate := 0 }] ∧
    get_hourly_stats [c3m] 24 999000 =
      [{ hour := 999300, total_messages := 1, unique_users := 1,
         bot_responses := 0, response_rate := 0 }] := by decide

/-- C8 (confirmed): with the messages table held fixed, two
`update_hourly_stats` runs during the same hour leave exactly one row in
`hourly_stats` under that hour key, and the table after the second run is
identical to the table after the first. -/
theorem claim_C8_update_idempotent (msgs : List MsgRow) (now1 now2 : Nat)
    (stats : List StatRow)
    (h : currentHourLabel now1 = currentHourLabel now2) :
    update_hourly_stats msgs now2 (update_hourly_stats msgs now1 stats) =
      update_hourly_stats msgs now1 stats ∧
    (update_hourly_stats msgs now1 stats).countP
      (fun r => r.hour == currentHourLabel now1) = 1 := by
  constructor
  · rw [update_hourly_stats, update_hourly_stats, ← h]
    simp [upsertStat, List.filter_append, List.filter_filter]
  · rw [update_hourly_stats]
    simp only [upsertStat, List.countP_append]
    have h0 : (stats.filter
        (fun r => r.hour != (statRowFor (currentHourLabel now1)
          (msgs.filter (inCurrentHour (currentHourLabel now1)))).hour)).countP
        (fun r => r.hour == currentHourLabel now1) = 0 := by
      rw [List.countP_eq_zero]
      intro a ha
      have := (List.mem_filter.mp ha).2
      simp only [statRowFor, bne_iff_ne, ne_eq] at this
      simp [this]
    rw [h0]
    simp [statRowFor]

theorem claim_C8_update_idempotent_witness :
    update_hourly_stats [] 0 (update_hourly_stats [] 0 []) =
      update_hourly_stats [] 0 [] ∧
    (update_hourly_stats [] 0 []).countP
      (fun r => r.hour == currentHourLabel 0) = 1 :=
  claim_C8_update_idempotent [] 0 0 [] rfl

/-- Modelled from the spec sentence defining the response rate: the mean of
the 0/1 reply indicators over the bot rows, 0 when no bot rows exist. -/
def specResponseRate (group : List MsgRow) : ℚ :=
  if (group.filter MsgRow.is_bot).isEmpty then 0
  else ((group.filter MsgRow.is_bot).map
      (fun r => if r.has_reply then (1 : ℚ) else 0)).sum /
    ((group.filter MsgRow.is_bot).length : ℚ)

theorem countP_cast_eq_sum_indicator (l : List MsgRow) :
    (l.countP MsgRow.has_reply : ℚ) =
      (l.map (fun r => if r.has_reply then (1 : ℚ) else 0)).sum := by
  induction l with
  | nil => simp
  | cons r rs ih =>
    by_cases hr : r.has_reply
    · simp only [List.countP_cons, List.map_cons, List.sum_cons, hr,
        if_pos, if_true]
      push_cast
      rw [ih]
      ring
    · simp only [List.countP_cons, List.map_cons, List.sum_cons, hr]
      simp only [Bool.false_eq_true, if_false, Nat.add_zero, ih]
      ring

/-- Demonstration bucket for C9: two bot rows, one of them replied to. -/
def c9demo : List MsgRow :=
  [ { rowid := 1, channel_id := "c", author_id := "u1", content := [],
      ts := 0, is_bot := true, is_reply := false, reply_to_id := none,
      has_reply := true },
    { rowid := 2, channel_id := "c", author_id := "u2", content := [],
      ts := 1, is_bot := true, is_reply := false, reply_to_id := none,
      has_reply := false } ]

/-- C9 (confirmed): the response rate stored by `update_hourly_stats` is the
mean of `has_reply` over exactly the bot rows of the bucket, is 0 when the
bucket has no bot rows (no division by zero), and evaluates to 1/2 on a
bucket with two bot messages of which one was replied to. -/
theorem claim_C9_response_rate :
    (∀ group : List MsgRow, response_rate_of group = specResponseRate group) ∧
    (∀ group : List MsgRow,
      group.filter MsgRow.is_bot = [] → response_rate_of group = 0) ∧
    (∀ (msgs : List MsgRow) (now : Nat) (stats : List StatRow),
      update_hourly_stats msgs now stats =
        upsertStat stats (statRowFor (currentHourLabel now)
          (msgs.filter (inCurrentHour (currentHourLabel now))))) ∧
    response_rate_of c9demo = 1 / 2 := by
  refine ⟨?_, ?_, fun _ _ _ => rfl, ?_⟩
  · intro group
    rw [response_rate_of, specResponseRate, countP_cast_eq_sum_indicator]
  · intro group hg
    rw [response_rate_of]
    simp [hg]
  · have hf : c9demo.filter MsgRow.is_bot = c9demo := by decide
    have hc : c9demo.countP MsgRow.has_reply = 1 := by decide
    have hl : c9demo.length = 2 := by decide
    rw [response_rate_of, hf, hc, hl,
      show c9demo.isEmpty = false from rfl]
    norm_num

theorem claim_C9_response_rate_witness : response_rate_of [] = 0 :=
  claim_C9_response_rate.2.1 [] rfl

theorem sortedKeys_sorted (keys : List Nat) :
    (sortedKeys keys).Sorted (· < ·) := by
  have hs : (sortedKeys keys).Sorted (· ≤ ·) :=
    List.sorted_insertionSort _ _
  have hn : (sortedKeys keys).Nodup :=
    (List.perm_insertionSort _ _).nodup_iff.mpr (List.nodup_dedup keys)
  exact hs.lt_of_le hn

theorem mem_sortedKeys (keys : List Nat) (k : Nat) :
    k ∈ sortedKeys keys ↔ k ∈ keys := by
  rw [sortedKeys, List.Perm.mem_iff (List.perm_insertionSort _ _),
    List.mem_dedup]

/-- C1 (amended): `get_hourly_stats` returns, in strictly ascending hour
order, exactly one row per hour bucket containing at least one in-range
message; it synthesizes no zero rows for silent hours — every returned row
counts at least one message — except that a query matching no message at all
yields the single all-zero row for the current hour.  For a store with
activity in only 3 of the last 24 hours it returns 3 rows, not 24
(`claim_C1_counterexample`). -/
theorem claim_C1_get_hourly_stats (msgs : List MsgRow) (hours now : Nat) :
    ((get_hourly_stats msgs hours now).map StatRow.hour).Sorted (· < ·) ∧
    (inRangeMsgs msgs hours now = [] →
      get_hourly_stats msgs hours now = [statRowFor (currentHourLabel now) []]) ∧
    (inRangeMsgs msgs hours now ≠ [] →
      (∀ k, k ∈ (get_hourly_stats msgs hours now).map StatRow.hour ↔
        ∃ r ∈ inRangeMsgs msgs hours now, istBucket r.ts = k) ∧
      (∀ row ∈ get_hourly_stats msgs hours now, 1 ≤ row.total_messages)) := by
  by_cases hemp : inRangeMsgs msgs hours now = []
  · have hkeys : (sortedKeys ((inRangeMsgs msgs hours now).map
        (fun r => istBucket r.ts))).isEmpty = true := by
      rw [hemp]
      rfl
    rw [get_hourly_stats, if_pos hkeys]
    refine ⟨by simp, fun _ => rfl, fun hne => absurd hemp hne⟩
  · obtain ⟨r0, hr0⟩ := List.exists_mem_of_ne_nil _ hemp
    have hk0 : istBucket r0.ts ∈ sortedKeys ((inRangeMsgs msgs hours now).map
        (fun r => istBucket r.ts)) :=
      (mem_sortedKeys _ _).mpr (List.mem_map_of_mem _ hr0)
    have hkeys : (sortedKeys ((inRangeMsgs msgs hours now).map
        (fun r => istBucket r.ts))).isEmpty = false := by
      rcases hk : sortedKeys ((inRangeMsgs msgs hours now).map
          (fun r => istBucket r.ts)) with _ | _
      · rw [hk] at hk0
        exact absurd hk0 (List.not_mem_nil _)
      · rw [hk]
        rfl
    rw [get_hourly_stats, if_neg (by simp [hkeys])]
    have hmap : ((sortedKeys ((inRangeMsgs msgs hours now).map
          (fun r => istBucket r.ts))).map
        (fun k => statRowFor k ((inRangeMsgs msgs hours now).filter
          (fun r => istBucket r.ts == k)))).map StatRow.hour =
        sortedKeys ((inRangeMsgs msgs hours now).map (fun r => istBucket r.ts)) := by
      have hcomp : StatRow.hour ∘ (fun k => statRowFor k
          ((inRangeMsgs msgs hours now).filter
            (fun r => istBucket r.ts == k))) = id := by
        funext k
        rfl
      rw [List.map_map, hcomp, List.map_id]
    refine ⟨?_, fun h => absurd h hemp, fun _ => ⟨?_, ?_⟩⟩
    · rw [hmap]
      exact sortedKeys_sorted _
    · intro k
      rw [hmap, mem_sortedKeys]
      constructor
      · intro hmem
        obtain ⟨r, hr, hrk⟩ := List.mem_map.mp hmem
        exact ⟨r, hr, hrk⟩
      · rintro ⟨r, hr, hrk⟩
        exact List.mem_map.mpr ⟨r, hr, hrk⟩
    · intro row hrow
      obtain ⟨k, hk, hrowk⟩ := List.mem_map.mp hrow
      obtain ⟨r, hr, hrk⟩ := List.mem_map.mp ((mem_sortedKeys _ _).mp hk)
      have hrg : r ∈ (inRangeMsgs msgs hours now).filter
          (fun r => istBucket r.ts == k) :=
        List.mem_filter.mpr ⟨hr, by simp [hrk]⟩
      have hlen : 0 < ((inRangeMsgs msgs hours now).filter
          (fun r => istBucket r.ts == k)).length :=
        List.length_pos.mpr (List.ne_nil_of_mem hrg)
      rw [← hrowk]
      simpa [statRowFor] using hlen

theorem claim_C1_get_hourly_stats_witness :
    get_hourly_stats [] 24 0 = [statRowFor (currentHourLabel 0) []] :=
  (claim_C1_get_hourly_stats [] 24 0).2.1 rfl

/-- Store with activity in exactly 3 distinct IST hours of the last 24. -/
def c1msgs : List MsgRow :=
  [ { rowid := 1, channel_id := "c", author_id := "u1", content := [],
      ts := 999000, is_bot := false, is_reply := false, reply_to_id := none,
      has_reply := false },
    { rowid := 2, channel_id := "c", author_id := "u2", content := [],
      ts := 999060, is_bot := false, is_reply := false, reply_to_id := none,
      has_reply := false },
    { rowid := 3, channel_id := "c", author_id := "u3", content := [],
      ts := 999120, is_bot := false, is_reply := false, reply_to_id := none,
      has_reply := false } ]

/-- C1 (counterexample): for a store with activity in only 3 of the last 24
hours, `get_hourly_stats` over 24 hours returns 3 rows, not the 24 gapless
rows the claim asserts. -/
theorem claim_C1_counterexample :
    (get_hourly_stats c1msgs 24 999000).length = 3 ∧
    (get_hourly_stats c1msgs 24 999000).length ≠ 24 := by decide

/-- The keyword and punctuation set of `is_question`. -/
def QUESTION_INDICATORS : List PyStr :=
  [("?".toList), ("what".toList), ("how".toList), ("why".toList),
   ("when".toList), ("where".toList), ("who".toList), ("can you".toList),
   ("could you".toList), ("help".toList), ("please".toList)]

/-- The keyword set of `is_help_request`. -/
def HELP_INDICATORS : List PyStr :=
  [("help".toList), ("assist".toList), ("support".toList),
   ("trouble".toList), ("issue".toList), ("problem".toList),
   ("how to".toList), ("guide".toList), ("tutorial".toList)]

/-- Embeds `BOT_NAME = "Grey"`. -/
def BOT_NAME : PyStr := ("Grey".toList)

/-- Python `str.lower()`, character-wise. -/
def pyLower (s : PyStr) : PyStr := s.map Char.toLower

/-- Embeds Python substring containment `needle in text`. -/
def containsSub (needle hay : PyStr) : Bool := decide (needle <:+: hay)

/-- Embeds `is_question`: any indicator occurs in the lowercased text. -/
def is_question (text : PyStr) : Bool :=
  QUESTION_INDICATORS.any (fun ind => containsSub ind (pyLower text))

/-- Embeds `is_help_request`: any indicator occurs in the lowercased text. -/
def is_help_request (text : PyStr) : Bool :=
  HELP_INDICATORS.any (fun ind => containsSub ind (pyLower text))

/-- Embeds `is_bot_mentioned`: a direct platform mention of the bot or its
name as a case-insensitive substring of the text. -/
def is_bot_mentioned (m : DMsg) : Bool :=
  m.mentionsSelf || containsSub (pyLower BOT_NAME) (pyLower m.content)

/-- Observable state of the agent process: the channel transcripts as held
by the platform (all channels, in arrival order), the key set of the
`UNANSWERED_MESSAGES` pending-ticket map, the analytics `messages` table,
and a ghost event log of the message ids whose fallback engagement response
fired (the log is written exactly when the fallback branch sends, and exists
only to state the temporal claims). -/
structure AgentState where
  channel : List DMsg
  tickets : List Nat
  db : List MsgRow
  fallbacks : List Nat
deriving DecidableEq

/-- The initial state: no messages, no tickets, empty tables. -/
def initState : AgentState :=
  { channel := [], tickets := [], db := [], fallbacks := [] }

/-- A raised Python exception from the external text-generation call
(`agent.print_response`). -/
inductive PyErr where
  | genFail
deriving DecidableEq

deriving instance DecidableEq for Except

/-- Embeds the send loop over `split_message` chunks: each `channel.send`
delivers a message authored by the bot itself, and each sent message is
logged with `is_bot=True`.  The platform-assigned ids of the sent messages
come from `ids`; send timestamps reuse the triggering message's time (no
proved property depends on them). -/
def sendChunks : AgentState → Nat → Nat → List PyStr → List Nat → AgentState
  | s, _, _, [], _ => s
  | s, _, _, _ :: _, [] => s
  | s, chId, sentAt, chunk :: rest, i :: ids =>
    sendChunks
      { s with
        channel := s.channel ++
          [{ id := i, channelId := chId, authorId := 0, authorIsBot := true,
             authorIsSelf := true, mentionsSelf := false, content := chunk,
             createdAt := sentAt, refId := none, refIsSelf := false }],
        db := log_message s.db
          { id := i, channelId := chId, authorId := 0, authorIsBot := true,
            authorIsSelf := true, mentionsSelf := false, content := chunk,
            createdAt := sentAt, refId := none, refIsSelf := false }
          true false none }
      chId sentAt rest ids

/-- Embeds the `on_message` event handler for one delivered message `m`:
the platform appends `m` to the channel; the handler returns after command
processing for the bot's own messages; otherwise it logs the message,
marks the replied-to message when `m` replies to one of the bot's own,
classifies the text, and either runs the immediate-response path — whose
generation call is not wrapped in any try/except here, so a raised failure
propagates out of the handler — or registers a pending ticket for the
delayed check.  `gen` is the outcome of the external `agent.print_response`
call and `sentIds` supplies platform ids for any sent chunks.  The
conversation-history map only feeds prompt text, which is external to every
claim, and is not tracked. -/
def onMessageStep (s : AgentState) (m : DMsg) (gen : Except PyErr PyStr)
    (sentIds : List Nat) : Except PyErr AgentState :=
  let s0 : AgentState := { s with channel := s.channel ++ [m] }
  if m.authorIsSelf = true then Except.ok s0
  else
    let db1 := log_message s0.db m false m.refId.isSome m.refId
    let db2 := match m.refId, m.refIsSelf with
      | some rid, true => mark_message_as_replied db1 rid
      | _, _ => db1
    if is_question m.content || is_help_request m.content ||
        is_bot_mentioned m then
      match gen with
      | Except.error e => Except.error e
      | Except.ok text =>
        Except.ok (sendChunks { s0 with db := db2 } m.channelId m.createdAt
          (split_message (clean_message (extract_response text))) sentIds)
    else
      Except.ok
        { s0 with
          db := db2,
          tickets :=
            if m.id ∈ s0.tickets then s0.tickets else s0.tickets ++ [m.id] }

/-- Embeds `channel.history(limit=10, after=message)` before the limit is
applied: the messages of the same channel that arrived after `message`,
oldest first. -/
def msgsAfter (s : AgentState) (m : DMsg) : List DMsg :=
  match s.channel.dropWhile (fun x => x.id != m.id) with
  | [] => []
  | _ :: rest => rest.filter (fun x => x.channelId == m.channelId)

/-- The cancellation test of the history scan:
`msg.author != bot.user and not msg.author.bot`. -/
def isHumanMsg (x : DMsg) : Bool := !x.authorIsSelf && !x.authorIsBot

/-- Embeds the resumed body of `check_unanswered_message` after its
`asyncio.sleep(RESPONSE_DELAY)`: when the ticket still exists, scan the
first ten messages after the original; a message from any non-bot author
pops the ticket with no send; otherwise the generation output is extracted,
cleaned, split and sent (the generation call is not wrapped in any
try/except here, so a raised failure propagates and the ticket stays), the
sends are logged, the fallback firing is recorded in the ghost log, and the
ticket is popped. -/
def checkUnanswered (s : AgentState) (m : DMsg) (gen : Except PyErr PyStr)
    (sentIds : List Nat) : Except PyErr AgentState :=
  if m.id ∈ s.tickets then
    if ((msgsAfter s m).take 10).any isHumanMsg then
      Except.ok { s with tickets := s.tickets.filter (fun t => t != m.id) }
    else
      match gen with
      | Except.error e => Except.error e
      | Except.ok text =>
        let s2 := sendChunks s m.channelId m.createdAt
          (split_message (clean_message (extract_response text))) sentIds
        Except.ok
          { s2 with
            tickets := s2.tickets.filter (fun t => t != m.id),
            fallbacks := s2.fallbacks ++ [m.id] }
  else Except.ok s

/-- Total runner for concrete `on_message` traces: the produced state, or
the previous state when the handler raised. -/
def stepOk (s : AgentState) (m : DMsg) (gen : Except PyErr PyStr)
    (sentIds : List Nat) : AgentState :=
  match onMessageStep s m gen sentIds with
  | Except.ok s2 => s2
  | Except.error _ => s

/-- Total runner for concrete delayed-check traces. -/
def stepOkCheck (s : AgentState) (m : DMsg) (gen : Except PyErr PyStr)
    (sentIds : List Nat) : AgentState :=
  match checkUnanswered s m gen sentIds with
  | Except.ok s2 => s2
  | Except.error _ => s

/-- Runs a list of arrivals with a trivial generation stub (used only with
messages that do not trigger the immediate-response path). -/
def runArrivals (s : AgentState) (ms : List DMsg) : AgentState :=
  ms.foldl (fun st mm => stepOk st mm (Except.ok []) []) s

theorem sendChunks_tickets (chunks : List PyStr) :
    ∀ (s : AgentState) (chId sentAt : Nat) (ids : List Nat),
    (sendChunks s chId sentAt chunks ids).tickets = s.tickets := by
  induction chunks with
  | nil =>
    intro s chId sentAt ids
    rfl
  | cons c cs ih =>
    intro s chId sentAt ids
    cases ids with
    | nil => rfl
    | cons i ids2 =>
      simp only [sendChunks]
      rw [ih]

theorem sendChunks_fallbacks (chunks : List PyStr) :
    ∀ (s : AgentState) (chId sentAt : Nat) (ids : List Nat),
    (sendChunks s chId sentAt chunks ids).fallbacks = s.fallbacks := by
  induction chunks with
  | nil =>
    intro s chId sentAt ids
    rfl
  | cons c cs ih =>
    intro s chId sentAt ids
    cases ids with
    | nil => rfl
    | cons i ids2 =>
      simp only [sendChunks]
      rw [ih]

theorem checkUnanswered_not_pending (s : AgentState) (m : DMsg)
    (gen : Except PyErr PyStr) (ids : List Nat) (h : m.id ∉ s.tickets) :
    checkUnanswered s m gen ids = Except.ok s := by
  simp only [checkUnanswered]
  rw [if_neg h]

theorem checkUnanswered_human_seen (s : AgentState) (m : DMsg)
    (gen : Except PyErr PyStr) (ids : List Nat) (hmem : m.id ∈ s.tickets)
    (hscan : ((msgsAfter s m).take 10).any isHumanMsg = true) :
    checkUnanswered s m gen ids =
      Except.ok { s with tickets := s.tickets.filter (fun t => t != m.id) } := by
  simp only [checkUnanswered]
  rw [if_pos hmem, if_pos hscan]

theorem checkUnanswered_fallback (s : AgentState) (m : DMsg) (text : PyStr)
    (ids : List Nat) (hmem : m.id ∈ s.tickets)
    (hscan : ((msgsAfter s m).take 10).any isHumanMsg = false) :
    checkUnanswered s m (Except.ok text) ids =
      Except.ok
        { sendChunks s m.channelId m.createdAt
            (split_message (clean_message (extract_response text))) ids with
          tickets := (sendChunks s m.channelId m.createdAt
            (split_message (clean_message (extract_response text))) ids).tickets.filter
            (fun t => t != m.id),
          fallbacks := (sendChunks s m.channelId m.createdAt
            (split_message (clean_message (extract_response text))) ids).fallbacks ++
            [m.id] } := by
  simp only [checkUnanswered]
  rw [if_pos hmem, if_neg (by simp [hscan])]

theorem onMessageStep_tickets_mono (s : AgentState) (m : DMsg)
    (gen : Except PyErr PyStr) (ids : List Nat) (s2 : AgentState)
    (h : onMessageStep s m gen ids = Except.ok s2) :
    ∀ t ∈ s.tickets, t ∈ s2.tickets := by
  intro t ht
  simp only [onMessageStep] at h
  by_cases hself : m.authorIsSelf = true
  · rw [if_pos hself] at h
    injection h with h2
    rw [← h2]
    exact ht
  · rw [if_neg hself] at h
    by_cases hneeds : (is_question m.content || is_help_request m.content ||
        is_bot_mentioned m) = true
    · rw [if_pos hneeds] at h
      cases gen with
      | error e => exact absurd h (by simp)
      | ok text =>
        injection h with h2
        rw [← h2, sendChunks_tickets]
        exact ht
    · rw [if_neg hneeds] at h
      injection h with h2
      rw [← h2]
      by_cases hmem : m.id ∈ s.tickets
      · simpa [hmem] using ht
      · simp only [hmem, if_false]
        exact List.mem_append_left _ ht

/-- C4 (amended): for a pending-response ticket, the resumed delayed task
sends no fallback and only removes the ticket when some human (non-bot)
message appears among the first ten messages following the original in its
channel; when no human message appears there, it sends the fallback exactly
once, records it, and removes the ticket; and a resume that finds its ticket
already removed changes nothing (idempotent cancellation).  The amendment
forced by `claim_C4_counterexample`: the reply scan is capped at ten
messages, so a human reply later than the first ten following messages does
not suppress the fallback. -/
theorem claim_C4_ticket_lifecycle (s : AgentState) (m : DMsg) (gen : PyStr)
    (sentIds : List Nat) :
    (m.id ∈ s.tickets → ((msgsAfter s m).take 10).any isHumanMsg = true →
      checkUnanswered s m (Except.ok gen) sentIds =
        Except.ok { s with tickets := s.tickets.filter (fun t => t != m.id) }) ∧
    (m.id ∈ s.tickets → ((msgsAfter s m).take 10).any isHumanMsg = false →
      ∃ s2, checkUnanswered s m (Except.ok gen) sentIds = Except.ok s2 ∧
        s2.fallbacks = s.fallbacks ++ [m.id] ∧ m.id ∉ s2.tickets) ∧
    (m.id ∉ s.tickets →
      checkUnanswered s m (Except.ok gen) sentIds = Except.ok s) := by
  refine ⟨?_, ?_, ?_⟩
  · intro hmem hscan
    exact checkUnanswered_human_seen s m (Except.ok gen) sentIds hmem hscan
  · intro hmem hscan
    refine ⟨_, checkUnanswered_fallback s m gen sentIds hmem hscan, ?_, ?_⟩
    · rw [sendChunks_fallbacks]
    · simp [List.mem_filter]
  · intro hmem
    exact checkUnanswered_not_pending s m (Except.ok gen) sentIds hmem

/-- A plain human message whose text triggers no engagement keyword. -/
def demoHuman : DMsg :=
  { id := 1, channelId := 5, authorId := 7, authorIsBot := false,
    authorIsSelf := false, mentionsSelf := false, content := ("ok".toList),
    createdAt := 1, refId := none, refIsSelf := false }

theorem claim_C4_ticket_lifecycle_witness :
    checkUnanswered initState demoHuman (Except.ok []) [] =
      Except.ok initState :=
  (claim_C4_ticket_lifecycle initState demoHuman [] []).2.2 (by decide)

/-- Ten messages from another (non-self) bot in the same channel. -/
def c4bots : List DMsg :=
  (List.range 10).map (fun i =>
    { id := 100 + i, channelId := 5, authorId := 9, authorIsBot := true,
      authorIsSelf := false, mentionsSelf := false, content := [],
      createdAt := 2 + i, refId := none, refIsSelf := false })

/-- A later human reply in the same channel, arriving after the ten bot
messages but before the delay expires. -/
def c4reply : DMsg :=
  { id := 200, channelId := 5, authorId := 8, authorIsBot := false,
    authorIsSelf := false, mentionsSelf := false, content := ("ok".toList),
    createdAt := 20, refId := none, refIsSelf := false }

/-- The state reached when the original message, ten bot messages and a
human reply have all been processed before the delayed check resumes. -/
def c4state : AgentState :=
  runArrivals initState (demoHuman :: c4bots ++ [c4reply])

/-- C4 (counterexample): with the ticket for message 1 still pending and a
human message observed in its channel within the delay window, the resumed
delayed task nevertheless fires the fallback, because the human reply lies
beyond the ten-message scan of `channel.history(limit=10)`. -/
theorem claim_C4_counterexample :
    1 ∈ c4state.tickets ∧
    (msgsAfter c4state demoHuman).any isHumanMsg = true ∧
    (stepOkCheck c4state demoHuman (Except.ok ("hi".toList)) [300]).fallbacks =
      [1] := by decide

/-- C5 (amended): processing an inbound message never removes pending
tickets — `on_message` only ever adds one — so the pending map can contain a
ticket for an already-answered message until the delayed task resumes; the
ticket is removed at the resume step, which, when a qualifying human reply
is among the first ten messages after the original, deletes the ticket
without sending anything. -/
theorem claim_C5_ticket_deletion_deferred (s : AgentState) (m : DMsg)
    (gen : Except PyErr PyStr) (sentIds : List Nat) :
    (∀ s2, onMessageStep s m gen sentIds = Except.ok s2 →
      ∀ t ∈ s.tickets, t ∈ s2.tickets) ∧
    (m.id ∈ s.tickets → ((msgsAfter s m).take 10).any isHumanMsg = true →
      checkUnanswered s m gen sentIds =
        Except.ok { s with tickets := s.tickets.filter (fun t => t != m.id) }) := by
  constructor
  · intro s2 h
    exact onMessageStep_tickets_mono s m gen sentIds s2 h
  · intro hmem hscan
    exact checkUnanswered_human_seen s m gen sentIds hmem hscan

/-- State after the original unanswered message was processed. -/
def c5state1 : AgentState := stepOk initState demoHuman (Except.ok []) []

/-- A qualifying human reply to `demoHuman` in the same channel. -/
def c5reply : DMsg :=
  { id := 2, channelId := 5, authorId := 8, authorIsBot := false,
    authorIsSelf := false, mentionsSelf := false, content := ("ok".toList),
    createdAt := 2, refId := some 1, refIsSelf := false }

/-- State right after the qualifying human reply was processed. -/
def c5state2 : AgentState := stepOk c5state1 c5reply (Except.ok []) []

theorem claim_C5_ticket_deletion_deferred_witness :
    checkUnanswered c5state2 demoHuman (Except.ok []) [] =
      Except.ok
        { c5state2 with
          tickets := c5state2.tickets.filter (fun t => t != demoHuman.id) } :=
  (claim_C5_ticket_deletion_deferred c5state2 demoHuman (Except.ok []) []).2
    (by decide) (by decide)

/-- C5 (counterexample): in the reachable state right after the qualifying
human reply (message 2) to the ticketed message 1 has been fully processed,
the pending map still contains the ticket for message 1 — deletion does not
happen at the step that processes the reply. -/
theorem claim_C5_counterexample :
    onMessageStep initState demoHuman (Except.ok []) [] = Except.ok c5state1 ∧
    onMessageStep c5state1 c5reply (Except.ok []) [] = Except.ok c5state2 ∧
    1 ∈ c5state2.tickets ∧
    (msgsAfter c5state2 demoHuman).any isHumanMsg = true := by decide

/-- C7 (amended): a text-generation failure in the passive engagement paths
is not caught inside those paths: no outbound message is sent by this code
and no state changes, but the exception propagates out of `on_message` and
out of the resumed `check_unanswered_message` (any catching happens in the
platform library outside this repository), and the fallback path's pending
ticket stays in place instead of being removed. -/
theorem claim_C7_generation_failure_propagates (s : AgentState) (m : DMsg)
    (sentIds : List Nat) (e : PyErr)
    (hself : m.authorIsSelf = false)
    (hneeds : (is_question m.content || is_help_request m.content ||
      is_bot_mentioned m) = true) :
    onMessageStep s m (Except.error e) sentIds = Except.error e ∧
    (m.id ∈ s.tickets → ((msgsAfter s m).take 10).any isHumanMsg = false →
      checkUnanswered s m (Except.error e) sentIds = Except.error e) := by
  constructor
  · simp only [onMessageStep]
    rw [if_neg (by simp [hself]), if_pos hneeds]
  · intro hmem hscan
    simp only [checkUnanswered]
    rw [if_pos hmem, if_neg (by simp [hscan])]

/-- A human message asking for help: triggers the immediate-response path. -/
def c7ask : DMsg :=
  { id := 10, channelId := 5, authorId := 7, authorIsBot := false,
    authorIsSelf := false, mentionsSelf := false,
    content := ("help me".toList), createdAt := 1, refId := none,
    refIsSelf := false }

theorem claim_C7_generation_failure_propagates_witness :
    onMessageStep initState c7ask (Except.error PyErr.genFail) [] =
      Except.error PyErr.genFail :=
  (claim_C7_generation_failure_propagates initState c7ask [] PyErr.genFail rfl
    (by decide)).1

/-- C7 (counterexample): with the generation service raising, the immediate
path of `on_message` does not complete normally — the failure escapes the
handler — and likewise the fallback path of the resumed delayed check, whose
pending ticket survives the failed resume. -/
theorem claim_C7_counterexample :
    onMessageStep initState c7ask (Except.error PyErr.genFail) [] =
      Except.error PyErr.genFail ∧
    checkUnanswered c5state1 demoHuman (Except.error PyErr.genFail) [] =
      Except.error PyErr.genFail ∧
    1 ∈ c5state1.tickets := by decide

/-- State after the help request was answered: the bot's single answer chunk
was sent with platform id 900 and logged under rowid 2. -/
def c2state1 : AgentState :=
  stepOk initState c7ask (Except.ok ("Sure".toList)) [900]

/-- A human reply to the bot's sent message with platform id 900
(`message.reference.resolved.author == bot.user` holds). -/
def c2reply : DMsg :=
  { id := 11, channelId := 5, authorId := 8, authorIsBot := false,
    authorIsSelf := false, mentionsSelf := false, content := ("ok".toList),
    createdAt := 3, refId := some 900, refIsSelf := true }

/-- State after the human reply to the bot message was processed. -/
def c2state2 : AgentState := stepOk c2state1 c2reply (Except.ok []) []

/-- C2 (code bug): `log_message` never stores the platform message id — the
`id` column is auto-assigned by SQLite — while `on_message` passes the
platform id of the replied-to message to `mark_message_as_replied`, so the
UPDATE matches no row: after the bot's answer (rowid 2, sent with platform
id 900) receives a qualifying human reply, the bot row still has
`has_reply = false`, and the marking call leaves the table unchanged. -/
theorem claim_C2_mark_replied_misses :
    onMessageStep c2state1 c2reply (Except.ok []) [] = Except.ok c2state2 ∧
    c2state1.db.map (fun r => (r.rowid, r.is_bot, r.has_reply)) =
      [(1, false, false), (2, true, false)] ∧
    c2state2.db.map (fun r => (r.rowid, r.is_bot, r.has_reply)) =
      [(1, false, false), (2, true, false), (3, false, false)] ∧
    mark_message_as_replied c2state1.db 900 = c2state1.db := by decide

end Agent
